import Mathlib

set_option maxRecDepth 10000

/-!
# Verification of the globe serial LED protocol

The repository ships two shared-constant headers
(`src/Arduinos/V2_A/shared_constants.h` and
`src/Arduinos/V3_both/shared_constants.h`).  The specification describes the
framed serial transport those constants imply: a `FrameCodec` (encode/decode of
a fixed-size color payload with sync bytes and an end marker), a
`SegmentRouter` (contiguous split of the LED buffer across receiving
segments), and a `SerialLinkSession` (byte accumulator with resynchronization
and timeout).  The constants below are transcribed from the headers; the
protocol operations are modelled from the specification, since their code is
not part of the repository snapshot.
-/

namespace Globe

/-! ## Constants from `src/Arduinos/V2_A/shared_constants.h` -/

namespace V2A

def BAUDRATE : Nat := 115200

def START_MARKER : Nat := 0xAA

def END_MARKER : Nat := 0xBB

def TOTAL_LEDS : Nat := 402

def NUM_LEDS_A : Nat := 220

def NUM_LEDS_B : Nat := TOTAL_LEDS - NUM_LEDS_A

def LED_PIN_A : Nat := 6

def LED_PIN_B : Nat := 6

def LED_DATA_SIZE : Nat := TOTAL_LEDS * 3

def SERIAL_TIMEOUT_MS : Nat := 200

end V2A

/-! ## Constants from `src/Arduinos/V3_both/shared_constants.h` -/

namespace V3both

def SYNC_1 : Nat := 0xAA

def SYNC_2 : Nat := 0x55

def BAUDRATE : Nat := 115200

def TOTAL_LEDS : Nat := 402

def NUM_LEDS_A : Nat := 220

def NUM_LEDS_B : Nat := TOTAL_LEDS - NUM_LEDS_A

def LED_PIN : Nat := 6

end V3both

/-! ## Protocol-level constants

The wire format of the spec uses the sync pair of the V3 header and the end
marker and derived payload size of the V2_A header. -/

def SYNC_1 : Nat := V3both.SYNC_1

def SYNC_2 : Nat := V3both.SYNC_2

def END_MARKER : Nat := V2A.END_MARKER

def TOTAL_LEDS : Nat := V2A.TOTAL_LEDS

def LED_DATA_SIZE : Nat := V2A.LED_DATA_SIZE

def SERIAL_TIMEOUT_MS : Nat := V2A.SERIAL_TIMEOUT_MS

/-! ## Data model -/

/-- One LED's color: a 3-byte RGB triple. -/
structure RGB where
  r : Nat
  g : Nat
  b : Nat
  deriving DecidableEq, Repr

/-- Modelled from the spec: a ColorBuffer is an ordered sequence of RGB
triples; a valid one has exactly `TOTAL_LEDS` entries, each byte 0-255. -/
abbrev ColorBuffer : Type := List RGB

/-- Validity of a ColorBuffer: fixed length `TOTAL_LEDS`, every channel a
byte (0-255). -/
def validBuffer (B : ColorBuffer) : Prop :=
  B.length = TOTAL_LEDS ∧ ∀ c ∈ B, c.r ≤ 255 ∧ c.g ≤ 255 ∧ c.b ≤ 255

instance (B : ColorBuffer) : Decidable (validBuffer B) := by
  unfold validBuffer; infer_instance

/-- Serialize the buffer: R,G,B per LED, LEDs in ascending index order. -/
def flattenBuf : ColorBuffer → List Nat
  | [] => []
  | c :: rest => c.r :: c.g :: c.b :: flattenBuf rest

/-- Regroup a flat payload into RGB triples (inverse of `flattenBuf` on
well-formed payloads). -/
def unflattenBuf : List Nat → ColorBuffer
  | r :: g :: b :: rest => ⟨r, g, b⟩ :: unflattenBuf rest
  | _ => []

/-! ## FrameCodec (modelled from the spec) -/

/-- Decode failure taxonomy of the spec: `FramingError` (end marker mismatch),
`IncompleteFrame` (not enough bytes after a sync match).  `NoSync` covers the
case the spec leaves to the session: no sync pair present yet. -/
inductive DecodeError where
  | FramingError
  | IncompleteFrame
  | NoSync
  deriving DecidableEq, Repr

/-- Modelled from the spec: `encode` emits the two synchronization bytes, the
raw payload bytes in index order, then the end marker byte. -/
def encode (B : ColorBuffer) : List Nat :=
  SYNC_1 :: SYNC_2 :: (flattenBuf B ++ [END_MARKER])

/-- Index of the first two-byte sync match `SYNC_1, SYNC_2` in the stream. -/
def findSync : List Nat → Option Nat
  | b1 :: b2 :: rest =>
    if b1 = SYNC_1 ∧ b2 = SYNC_2 then some 0
    else Option.map (· + 1) (findSync (b2 :: rest))
  | _ => none

/-- Modelled from the spec: `decode` scans for the two-byte sync sequence;
upon finding it, reads exactly `LED_DATA_SIZE` subsequent bytes as payload,
then checks the following byte equals the end marker.  Returns the decoded
buffer together with the bytes after the frame (the session retains them). -/
def decodeCore (bs : List Nat) : Except DecodeError (ColorBuffer × List Nat) :=
  match findSync bs with
  | none => .error .NoSync
  | some i =>
    let rest := bs.drop (i + 2)
    if rest.length < LED_DATA_SIZE + 1 then .error .IncompleteFrame
    else if rest.getD LED_DATA_SIZE 0 = END_MARKER then
      .ok (unflattenBuf (rest.take LED_DATA_SIZE), rest.drop (LED_DATA_SIZE + 1))
    else .error .FramingError

/-- The spec's `decode(bytes) → Result<ColorBuffer, DecodeError>`. -/
def decode (bs : List Nat) : Except DecodeError ColorBuffer :=
  Except.map Prod.fst (decodeCore bs)

/-! ## SegmentRouter (modelled from the spec) -/

inductive ConfigError where
  | ConfigurationError
  deriving DecidableEq, Repr

/-- Running-sum ranges: segment `k` gets the half-open range starting where
segment `k-1` ended, of its own size. -/
def runningRanges (start : Nat) : List Nat → List (Nat × Nat)
  | [] => []
  | sz :: rest => (start, start + sz) :: runningRanges (start + sz) rest

/-- Modelled from the spec: `assign` computes contiguous half-open ranges by
running sum; fails with `ConfigurationError` if the sizes do not sum exactly
to the total. -/
def assign (total : Nat) (segmentSizes : List Nat) :
    Except ConfigError (List (Nat × Nat)) :=
  if segmentSizes.sum = total then .ok (runningRanges 0 segmentSizes)
  else .error .ConfigurationError

/-- Modelled from the spec: `extract` returns the sub-sequence of the buffer
for the given segment's half-open range. -/
def extract (buffer : ColorBuffer) (assignment : List (Nat × Nat))
    (segmentId : Nat) : ColorBuffer :=
  let r := assignment.getD segmentId (0, 0)
  (buffer.drop r.1).take (r.2 - r.1)

/-! ## SerialLinkSession (modelled from the spec)

The session accumulates bytes and repeatedly attempts decode: on success it
emits the buffer and keeps the trailing bytes; on `FramingError` it discards
one byte from the front of the accumulator and retries scanning
(resynchronization); on `IncompleteFrame` or no sync it waits for more bytes.
Every loop iteration consumes at least one byte of the accumulator, so the
accumulator's length bounds the number of iterations. -/

/-- One pass of the session's decode loop, with explicit fuel. -/
def drainFuel : Nat → List Nat → List Nat × List ColorBuffer
  | 0, acc => (acc, [])
  | fuel + 1, acc =>
    match decodeCore acc with
    | .ok (p, rest) => ((drainFuel fuel rest).1, p :: (drainFuel fuel rest).2)
    | .error .FramingError => drainFuel fuel acc.tail
    | .error .IncompleteFrame => (acc, [])
    | .error .NoSync => (acc, [])

/-- The session's decode loop: returns the remaining accumulator and the
decoded buffers, in order. -/
def drain (acc : List Nat) : List Nat × List ColorBuffer :=
  drainFuel acc.length acc

/-- Session states of the spec's state machine (the transient states resolve
within a single `ingest`/`checkTimeout` call). -/
inductive SessionState where
  | AwaitingSync
  | AccumulatingPayload
  deriving DecidableEq, Repr

/-- A receiving endpoint's view of the stream: rolling byte accumulator and
last-byte-received timestamp. -/
structure Session where
  acc : List Nat
  lastByteTimestamp : Nat
  state : SessionState
  deriving DecidableEq, Repr

/-- The state the session settles in for a given residual accumulator: mid
frame (a sync match is pending) means `AccumulatingPayload`, otherwise
`AwaitingSync`. -/
def stateFor (acc : List Nat) : SessionState :=
  match findSync acc with
  | some _ => .AccumulatingPayload
  | none => .AwaitingSync

/-- A freshly opened session: empty accumulator, awaiting sync. -/
def initialSession (t : Nat) : Session :=
  ⟨[], t, .AwaitingSync⟩

/-- Modelled from the spec: `ingest` appends the new bytes to the
accumulator, updates the last-byte timestamp, and attempts decode while
frames complete, emitting each decoded buffer and retaining trailing bytes. -/
def ingest (s : Session) (newBytes : List Nat) (now : Nat) :
    Session × List ColorBuffer :=
  let r := drain (s.acc ++ newBytes)
  (⟨r.1, now, stateFor r.1⟩, r.2)

/-- Feed bytes one at a time, each in its own `ingest` call, collecting every
emitted buffer in order. -/
def ingestOneByOne (s : Session) (bytes : List Nat) (now : Nat) :
    Session × List ColorBuffer :=
  match bytes with
  | [] => (s, [])
  | b :: rest =>
    let r1 := ingest s [b] now
    let r2 := ingestOneByOne r1.1 rest now
    (r2.1, r1.2 ++ r2.2)

/-- The timeout signal of the spec. -/
inductive TimeoutSignal where
  | TimeoutError
  deriving DecidableEq, Repr

/-- Modelled from the spec: `checkTimeout(now)` clears the accumulator,
returns to `AwaitingSync` and signals `TimeoutError` when more than
`SERIAL_TIMEOUT_MS` elapsed since the last byte and the session is not
already `AwaitingSync` with an empty accumulator. -/
def checkTimeout (s : Session) (now : Nat) : Session × Option TimeoutSignal :=
  if SERIAL_TIMEOUT_MS < now - s.lastByteTimestamp ∧
      ¬(s.state = .AwaitingSync ∧ s.acc = []) then
    (⟨[], s.lastByteTimestamp, .AwaitingSync⟩, some .TimeoutError)
  else (s, none)

/-! ## Concrete inputs used for witnesses -/

/-- A concrete valid buffer: 402 black LEDs. -/
def testBuffer : ColorBuffer := List.replicate 402 ⟨0, 0, 0⟩

/-- A concrete corrupted frame: a sync pair followed by a full payload worth
of zero bytes and a zero where the end marker belongs. -/
def badFrame : List Nat := SYNC_1 :: SYNC_2 :: List.replicate 1207 0

/-! ## Helper lemmas: payload serialization -/

theorem flattenBuf_length (B : ColorBuffer) :
    (flattenBuf B).length = 3 * B.length := by
  induction B with
  | nil => rfl
  | cons c rest ih => simp [flattenBuf, ih]; ring

theorem unflattenBuf_flattenBuf (B : ColorBuffer) :
    unflattenBuf (flattenBuf B) = B := by
  induction B with
  | nil => rfl
  | cons c rest ih => simp [flattenBuf, unflattenBuf, ih]

/-! ## Helper lemmas: sync scanning -/

theorem findSync_sync_cons (rest : List Nat) :
    findSync (SYNC_1 :: SYNC_2 :: rest) = some 0 := by
  simp [findSync]

theorem findSync_encode (B : ColorBuffer) : findSync (encode B) = some 0 :=
  findSync_sync_cons _

theorem findSync_cons_succ {b : Nat} {tl : List Nat} {i : Nat}
    (h : findSync (b :: tl) = some (i + 1)) : findSync tl = some i := by
  match tl with
  | [] => simp [findSync] at h
  | b2 :: rest =>
    rw [findSync] at h
    split at h
    · simp at h
    · rcases Option.map_eq_some'.1 h with ⟨j, hj, hji⟩
      have hji' : j = i := by omega
      subst hji'
      exact hj

theorem findSync_some_le {bs : List Nat} {i : Nat}
    (h : findSync bs = some i) : i + 2 ≤ bs.length := by
  induction bs generalizing i with
  | nil => simp [findSync] at h
  | cons b tl ih =>
    match tl, i with
    | [], _ => simp [findSync] at h
    | b2 :: rest, 0 => simp
    | b2 :: rest, i + 1 =>
      have := ih (findSync_cons_succ h)
      simp only [List.length_cons] at this ⊢
      omega

/-! ## Helper lemmas: decodeCore -/

theorem decodeCore_nil : decodeCore [] = .error .NoSync := rfl

theorem decodeCore_no_sync {bs : List Nat} (h : findSync bs = none) :
    decodeCore bs = .error .NoSync := by
  rw [decodeCore, h]

theorem decodeCore_cons_succ {b : Nat} {tl : List Nat} {i : Nat}
    (h : findSync (b :: tl) = some (i + 1)) :
    decodeCore (b :: tl) = decodeCore tl := by
  rw [decodeCore, decodeCore, h, findSync_cons_succ h]
  simp only [List.drop_succ_cons]

theorem decodeCore_ok_rest_length {bs : List Nat} {p : ColorBuffer}
    {rest : List Nat} (h : decodeCore bs = .ok (p, rest)) :
    rest.length < bs.length := by
  rw [decodeCore] at h
  rcases hs : findSync bs with _ | i
  · rw [hs] at h; exact absurd h (by simp)
  · rw [hs] at h
    have hlen := findSync_some_le hs
    simp only at h
    split at h
    · exact absurd h (by simp)
    · split at h
      · rename_i hge _
        simp only [Except.ok.injEq, Prod.mk.injEq] at h
        have hr : rest = (bs.drop (i + 2)).drop (LED_DATA_SIZE + 1) := h.2.symm
        subst hr
        simp only [List.length_drop] at hge ⊢
        omega
      · exact absurd h (by simp)

theorem decodeCore_ne_nil_of_framing {bs : List Nat}
    (h : decodeCore bs = .error .FramingError) : bs ≠ [] := by
  intro hnil; subst hnil; exact absurd (decodeCore_nil ▸ h) (by simp)

/-- Decoding a well-formed frame succeeds, recovers the buffer exactly, and
consumes the whole frame. -/
theorem decodeCore_encode {B : ColorBuffer} (h : B.length = TOTAL_LEDS) :
    decodeCore (encode B) = .ok (B, []) := by
  have hflat : (flattenBuf B).length = LED_DATA_SIZE := by
    rw [flattenBuf_length, h]; rfl
  rw [decodeCore, findSync_encode]
  simp only [encode, List.drop_succ_cons, List.drop_zero]
  have hlen : (flattenBuf B ++ [END_MARKER]).length = LED_DATA_SIZE + 1 := by
    simp [hflat]
  rw [if_neg (by omega), List.getD_append_right _ _ _ _ (le_of_eq hflat)]
  rw [hflat, Nat.sub_self]
  rw [if_pos (by simp)]
  rw [List.take_left' hflat, unflattenBuf_flattenBuf,
    List.drop_eq_nil_of_le (le_of_eq hlen)]

/-! ## Helper lemmas: the session drain loop -/

theorem drainFuel_fuel_irrel :
    ∀ (f₁ f₂ : Nat) (acc : List Nat), acc.length ≤ f₁ → acc.length ≤ f₂ →
      drainFuel f₁ acc = drainFuel f₂ acc := by
  intro f₁
  induction f₁ with
  | zero =>
    intro f₂ acc h₁ _
    have : acc = [] := List.length_eq_zero.1 (Nat.le_zero.1 h₁)
    subst this
    cases f₂ with
    | zero => rfl
    | succ g => simp [drainFuel, decodeCore_nil]
  | succ g₁ ih =>
    intro f₂ acc h₁ h₂
    cases hacc : acc with
    | nil =>
      cases f₂ with
      | zero => simp [drainFuel, decodeCore_nil]
      | succ g₂ => simp [drainFuel, decodeCore_nil]
    | cons a tl =>
      subst hacc
      cases f₂ with
      | zero => simp at h₂
      | succ g₂ =>
        rcases hd : decodeCore (a :: tl) with e | ⟨p, rest⟩
        · cases e with
          | FramingError =>
            have htl₁ : tl.length ≤ g₁ := by simp at h₁; omega
            have htl₂ : tl.length ≤ g₂ := by simp at h₂; omega
            simp only [drainFuel, hd, List.tail_cons]
            exact ih g₂ tl htl₁ htl₂
          | IncompleteFrame => simp [drainFuel, hd]
          | NoSync => simp [drainFuel, hd]
        · have hr := decodeCore_ok_rest_length hd
          have hr₁ : rest.length ≤ g₁ := by simp at hr h₁; omega
          have hr₂ : rest.length ≤ g₂ := by simp at hr h₂; omega
          simp only [drainFuel, hd]
          rw [ih g₂ rest hr₁ hr₂]

theorem drainFuel_eq_drain {fuel : Nat} {acc : List Nat}
    (h : acc.length ≤ fuel) : drainFuel fuel acc = drain acc :=
  drainFuel_fuel_irrel fuel acc.length acc h le_rfl

theorem drain_ok {acc : List Nat} {p : ColorBuffer} {rest : List Nat}
    (h : decodeCore acc = .ok (p, rest)) :
    drain acc = ((drain rest).1, p :: (drain rest).2) := by
  have hlen := decodeCore_ok_rest_length h
  cases acc with
  | nil => rw [decodeCore_nil] at h; simp at h
  | cons a tl =>
    show drainFuel (tl.length + 1) (a :: tl) = _
    simp only [drainFuel, h]
    simp only [List.length_cons] at hlen
    rw [drainFuel_eq_drain (by omega)]

theorem drain_framing {acc : List Nat}
    (h : decodeCore acc = .error .FramingError) :
    drain acc = drain acc.tail := by
  cases acc with
  | nil => rw [decodeCore_nil] at h; simp at h
  | cons a tl =>
    show drainFuel (tl.length + 1) (a :: tl) = _
    simp only [drainFuel, h, List.tail_cons]
    exact drainFuel_eq_drain (by simp)

theorem drain_stop {acc : List Nat}
    (h : decodeCore acc = .error .IncompleteFrame ∨
      decodeCore acc = .error .NoSync) :
    drain acc = (acc, []) := by
  cases acc with
  | nil => rfl
  | cons a tl =>
    show drainFuel (tl.length + 1) (a :: tl) = _
    rcases h with h | h <;> simp only [drainFuel, h]

theorem drain_nil : drain [] = ([], []) := rfl

theorem drain_encode {B : ColorBuffer} (h : B.length = TOTAL_LEDS) :
    drain (encode B) = ([], [B]) := by
  rw [drain_ok (decodeCore_encode h), drain_nil]

/-! ## Helper lemmas: decode failure characterization -/

theorem decodeCore_framing_iff (bs : List Nat) :
    decodeCore bs = .error .FramingError ↔
      ∃ i, findSync bs = some i ∧ LED_DATA_SIZE + 1 ≤ bs.length - (i + 2) ∧
        bs.getD (i + 2 + LED_DATA_SIZE) 0 ≠ END_MARKER := by
  rw [decodeCore]
  rcases hs : findSync bs with _ | i
  · simp [hs]
  · have hgd : (bs.drop (i + 2)).getD LED_DATA_SIZE 0 =
        bs.getD (i + 2 + LED_DATA_SIZE) 0 := by
      simp [List.getD_eq_getD_get?, List.getElem?_drop]
    simp only [hs, List.length_drop, hgd]
    constructor
    · intro h
      split at h
      · simp at h
      · split at h
        · simp at h
        · rename_i hge hne
          exact ⟨i, rfl, by omega, hne⟩
    · rintro ⟨j, hj, hge, hne⟩
      have hij : i = j := by simpa using hj
      subst hij
      rw [if_neg (by omega), if_neg hne]

theorem decodeCore_incomplete_iff (bs : List Nat) :
    decodeCore bs = .error .IncompleteFrame ↔
      ∃ i, findSync bs = some i ∧ bs.length - (i + 2) < LED_DATA_SIZE + 1 := by
  rw [decodeCore]
  rcases hs : findSync bs with _ | i
  · simp [hs]
  · simp only [hs, List.length_drop]
    constructor
    · intro h
      split at h
      · rename_i hlt
        exact ⟨i, rfl, by omega⟩
      · split at h <;> simp at h
    · rintro ⟨j, hj, hlt⟩
      have hij : i = j := by simpa using hj
      subst hij
      rw [if_pos (by omega)]

/-- After a framing error the drain loop's byte-at-a-time resynchronization
is equivalent to resuming the scan just past the start of the failed sync
match. -/
theorem drain_resync {bs : List Nat} {i : Nat} (hs : findSync bs = some i)
    (hf : decodeCore bs = .error .FramingError) :
    drain bs = drain (bs.drop (i + 1)) := by
  induction i generalizing bs with
  | zero =>
    rw [drain_framing hf, List.drop_one]
  | succ j ih =>
    cases bs with
    | nil => simp [findSync] at hs
    | cons b tl =>
      have hst : findSync tl = some j := findSync_cons_succ hs
      have hdt : decodeCore (b :: tl) = decodeCore tl := decodeCore_cons_succ hs
      rw [drain_framing hf, List.tail_cons, List.drop_succ_cons]
      exact ih hst (hdt ▸ hf)

/-! ## Helper lemmas: proper prefixes of an encoded frame -/

theorem encode_length {B : ColorBuffer} (h : B.length = TOTAL_LEDS) :
    (encode B).length = 2 + LED_DATA_SIZE + 1 := by
  simp [encode, flattenBuf_length, h]; rfl

/-- A proper prefix of an encoded frame never decodes and never raises a
framing error: the decoder just waits for more bytes. -/
theorem decodeCore_prefix {B : ColorBuffer} (hB : B.length = TOTAL_LEDS)
    {pre rest : List Nat} (happ : pre ++ rest = encode B) (hne : rest ≠ []) :
    decodeCore pre = .error .NoSync ∨
      decodeCore pre = .error .IncompleteFrame := by
  have hlt : pre.length < (encode B).length := by
    have := congrArg List.length happ
    simp only [List.length_append] at this
    have : pre.length + rest.length = (encode B).length := this
    have hr : 0 < rest.length := List.length_pos.2 hne
    omega
  match pre, happ with
  | [], _ => exact Or.inl decodeCore_nil
  | [x], _ => exact Or.inl (decodeCore_no_sync rfl)
  | x :: y :: p, happ =>
    have hx : x = SYNC_1 := by
      have := congrArg (fun l => l.getD 0 0) happ
      simpa [encode] using this
    have hy : y = SYNC_2 := by
      have := congrArg (fun l => l.getD 1 0) happ
      simpa [encode] using this
    subst hx; subst hy
    right
    rw [decodeCore, findSync_sync_cons]
    simp only [List.drop_succ_cons, List.drop_zero]
    rw [if_pos]
    rw [encode_length hB] at hlt
    simp only [List.length_cons] at hlt
    omega

theorem decode_error_iff (bs : List Nat) (e : DecodeError) :
    decode bs = .error e ↔ decodeCore bs = .error e := by
  rcases h : decodeCore bs with e' | pr <;> simp [decode, h, Except.map]

/-! ## Claim theorems -/

/-- Claim C1: for every valid ColorBuffer `B` (exactly `TOTAL_LEDS` RGB
triples, each byte 0-255), decoding the byte sequence produced by
`encode B` succeeds and returns a buffer equal to `B`. -/
theorem c1_decode_encode_roundtrip (B : ColorBuffer) (h : validBuffer B) :
    decode (encode B) = .ok B := by
  rw [decode, decodeCore_encode h.1]
  rfl

theorem c1_witness :
    validBuffer testBuffer ∧ decode (encode testBuffer) = .ok testBuffer :=
  ⟨by decide, c1_decode_encode_roundtrip testBuffer (by decide)⟩

/-- Claim C5: for every valid ColorBuffer the encoded frame has length
exactly `2 + LED_DATA_SIZE + 1 = 1209` bytes, laid out as the sync pair,
then the `LED_DATA_SIZE`-byte payload, then the end marker byte. -/
theorem c5_encode_length_layout (B : ColorBuffer) (h : validBuffer B) :
    (encode B).length = 2 + LED_DATA_SIZE + 1 ∧
    LED_DATA_SIZE = 1206 ∧ (encode B).length = 1209 ∧
    encode B = [SYNC_1, SYNC_2] ++ flattenBuf B ++ [END_MARKER] ∧
    (flattenBuf B).length = LED_DATA_SIZE := by
  have hl := encode_length h.1
  have hf : (flattenBuf B).length = LED_DATA_SIZE := by
    rw [flattenBuf_length, h.1]; rfl
  exact ⟨hl, rfl, by rw [hl]; rfl, by simp [encode], hf⟩

theorem c5_witness :
    validBuffer testBuffer ∧ (encode testBuffer).length = 1209 :=
  ⟨by decide, (c5_encode_length_layout testBuffer (by decide)).2.2.1⟩

/-- Claim C2: `decode` fails with `FramingError` exactly when the scan finds
a sync pair with at least `LED_DATA_SIZE + 1` bytes after it but the byte
after the payload differs from the end marker; it fails with
`IncompleteFrame` exactly when the scan finds a sync pair with fewer than
`LED_DATA_SIZE + 1` bytes after it; and after a `FramingError` the decoding
loop resumes scanning from the byte immediately after the failed sync match
(not from the end of the failed frame). -/
theorem c2_decode_failures :
    (∀ bs : List Nat, decode bs = .error .FramingError ↔
      ∃ i, findSync bs = some i ∧ LED_DATA_SIZE + 1 ≤ bs.length - (i + 2) ∧
        bs.getD (i + 2 + LED_DATA_SIZE) 0 ≠ END_MARKER) ∧
    (∀ bs : List Nat, decode bs = .error .IncompleteFrame ↔
      ∃ i, findSync bs = some i ∧ bs.length - (i + 2) < LED_DATA_SIZE + 1) ∧
    (∀ (bs : List Nat) (i : Nat), findSync bs = some i →
      decode bs = .error .FramingError →
      drain bs = drain (bs.drop (i + 1))) := by
  refine ⟨fun bs => ?_, fun bs => ?_, fun bs i hs hf => ?_⟩
  · rw [decode_error_iff]; exact decodeCore_framing_iff bs
  · rw [decode_error_iff]; exact decodeCore_incomplete_iff bs
  · exact drain_resync hs ((decode_error_iff bs _).1 hf)

theorem c2_witness :
    findSync badFrame = some 0 ∧ decode badFrame = .error .FramingError ∧
    drain badFrame = drain (badFrame.drop 1) :=
  ⟨rfl, rfl, c2_decode_failures.2.2 badFrame 0 rfl rfl⟩

/-- Claim C4: `assign` fails with `ConfigurationError` exactly when the
segment sizes do not sum to the total; in particular `assign 402 [220, 181]`
fails with `ConfigurationError`. -/
theorem c4_assign_validation :
    (∀ (total : Nat) (sizes : List Nat),
      assign total sizes = .error .ConfigurationError ↔ sizes.sum ≠ total) ∧
    assign 402 [220, 181] = .error .ConfigurationError := by
  refine ⟨fun total sizes => ?_, rfl⟩
  rw [assign]
  split
  · rename_i hsum; simp [hsum]
  · rename_i hsum; simp [hsum]

/-- Claim C6: the frame markers are fixed single-byte constants
(`SYNC_1 = 0xAA`, `SYNC_2 = 0x55`, `END_MARKER = 0xBB`, each a byte) and the
two synchronization values are distinct. -/
theorem c6_marker_constants :
    SYNC_1 = 0xAA ∧ SYNC_2 = 0x55 ∧ END_MARKER = 0xBB ∧
    SYNC_1 ≤ 255 ∧ SYNC_2 ≤ 255 ∧ END_MARKER ≤ 255 ∧ SYNC_1 ≠ SYNC_2 := by
  decide

/-- Claim C7: the configured constants satisfy
`LED_DATA_SIZE = TOTAL_LEDS * 3` and `TOTAL_LEDS = NUM_LEDS_A + NUM_LEDS_B`,
with the concrete values 402, 220, 182 and 1206. -/
theorem c7_derived_constants :
    V2A.LED_DATA_SIZE = V2A.TOTAL_LEDS * 3 ∧
    V2A.TOTAL_LEDS = V2A.NUM_LEDS_A + V2A.NUM_LEDS_B ∧
    V3both.TOTAL_LEDS = V3both.NUM_LEDS_A + V3both.NUM_LEDS_B ∧
    V2A.TOTAL_LEDS = 402 ∧ V2A.NUM_LEDS_A = 220 ∧ V2A.NUM_LEDS_B = 182 ∧
    V2A.LED_DATA_SIZE = 1206 := by
  decide

/-! ## Helper lemmas: segment ranges -/

theorem runningRanges_sizes (start : Nat) (sizes : List Nat) :
    (runningRanges start sizes).map (fun r => r.2 - r.1) = sizes := by
  induction sizes generalizing start with
  | nil => rfl
  | cons sz rest ih =>
    simp [runningRanges, ih, Nat.add_sub_cancel_left]

theorem runningRanges_contiguous (start : Nat) (sizes : List Nat) :
    List.Chain' (fun r s => r.2 = s.1) (runningRanges start sizes) := by
  induction sizes generalizing start with
  | nil => simp [runningRanges]
  | cons sz rest ih =>
    cases rest with
    | nil => simp [runningRanges]
    | cons sz2 rest2 =>
      rw [runningRanges, runningRanges, List.chain'_cons]
      exact ⟨rfl, by rw [← runningRanges]; exact ih (start + sz)⟩

/-- Claim C3: `assign` computes contiguous half-open ranges by running sum
over the ordered segment sizes (each range's size is its segment's size and
consecutive ranges abut); for total 402 and sizes [220, 182] it yields
[0,220) and [220,402); extracting both segments from a full-length buffer
yields slices of lengths 220 and 182 whose concatenation is the buffer. -/
theorem c3_segment_assignment (buffer : ColorBuffer)
    (h : buffer.length = TOTAL_LEDS) :
    assign 402 [220, 182] = .ok [(0, 220), (220, 402)] ∧
    (∀ (start : Nat) (sizes : List Nat),
      (runningRanges start sizes).map (fun r => r.2 - r.1) = sizes) ∧
    (∀ (start : Nat) (sizes : List Nat),
      List.Chain' (fun r s => r.2 = s.1) (runningRanges start sizes)) ∧
    (extract buffer [(0, 220), (220, 402)] 0).length = 220 ∧
    (extract buffer [(0, 220), (220, 402)] 1).length = 182 ∧
    extract buffer [(0, 220), (220, 402)] 0 ++
      extract buffer [(0, 220), (220, 402)] 1 = buffer := by
  have h402 : buffer.length = 402 := h
  have he0 : extract buffer [(0, 220), (220, 402)] 0 = buffer.take 220 := rfl
  have he1 : extract buffer [(0, 220), (220, 402)] 1 =
      (buffer.drop 220).take 182 := rfl
  have hd : (buffer.drop 220).length = 182 := by
    rw [List.length_drop, h402]
  have he1' : extract buffer [(0, 220), (220, 402)] 1 = buffer.drop 220 := by
    rw [he1, List.take_of_length_le (le_of_eq hd)]
  refine ⟨rfl, runningRanges_sizes, runningRanges_contiguous, ?_, ?_, ?_⟩
  · rw [he0, List.length_take, h402]; decide
  · rw [he1', hd]
  · rw [he0, he1', List.take_append_drop]

theorem c3_witness :
    testBuffer.length = TOTAL_LEDS ∧
    extract testBuffer [(0, 220), (220, 402)] 0 ++
      extract testBuffer [(0, 220), (220, 402)] 1 = testBuffer :=
  ⟨by decide, (c3_segment_assignment testBuffer (by decide)).2.2.2.2.2⟩

/-- Claim C8: `checkTimeout now` clears the accumulator, moves the session to
`AwaitingSync` and signals `TimeoutError` exactly when more than
`SERIAL_TIMEOUT_MS` elapsed since the last byte and the session is not
already `AwaitingSync` with an empty accumulator; after such a reset a
subsequently fed complete valid frame decodes normally. -/
theorem c8_timeout_reset (s : Session) (now : Nat) :
    ((checkTimeout s now).2 = some .TimeoutError ∧
      (checkTimeout s now).1.acc = [] ∧
      (checkTimeout s now).1.state = .AwaitingSync ↔
      SERIAL_TIMEOUT_MS < now - s.lastByteTimestamp ∧
        ¬(s.state = .AwaitingSync ∧ s.acc = [])) ∧
    (∀ (B : ColorBuffer) (t2 : Nat), validBuffer B →
      SERIAL_TIMEOUT_MS < now - s.lastByteTimestamp →
      ¬(s.state = .AwaitingSync ∧ s.acc = []) →
      (ingest (checkTimeout s now).1 (encode B) t2).2 = [B]) := by
  constructor
  · rw [checkTimeout]
    split
    · rename_i hc
      exact ⟨fun _ => hc, fun _ => ⟨rfl, rfl, rfl⟩⟩
    · rename_i hc
      constructor
      · intro habs
        simp at habs
      · intro hcc
        exact absurd hcc hc
  · intro B t2 hB h1 h2
    rw [checkTimeout, if_pos ⟨h1, h2⟩]
    show (ingest ⟨[], s.lastByteTimestamp, .AwaitingSync⟩ (encode B) t2).2 = [B]
    rw [ingest]
    simp only [List.nil_append]
    rw [drain_encode hB.1]

theorem c8_witness :
    (ingest (checkTimeout ⟨[0xAA], 0, .AccumulatingPayload⟩ 300).1
      (encode testBuffer) 301).2 = [testBuffer] :=
  (c8_timeout_reset ⟨[0xAA], 0, .AccumulatingPayload⟩ 300).2 testBuffer 301
    (by decide) (by decide) (by decide)

/-! ## Helper lemmas: byte-at-a-time delivery -/

theorem ingestOneByOne_prefix {B : ColorBuffer} (hB : B.length = TOTAL_LEDS) :
    ∀ (rest pre : List Nat) (t : Nat) (st : SessionState) (now : Nat),
      pre ++ rest = encode B → rest ≠ [] →
      (ingestOneByOne ⟨pre, t, st⟩ rest now).2 = [B] := by
  intro rest
  induction rest with
  | nil => intro _ _ _ _ happ hne; exact absurd rfl hne
  | cons b rest' ih =>
    intro pre t st now happ hne
    cases rest' with
    | nil =>
      have hfull : pre ++ [b] = encode B := happ
      have hdrain : drain (pre ++ [b]) = ([], [B]) := by
        rw [hfull]; exact drain_encode hB
      rw [ingestOneByOne, ingest]
      simp only [hdrain]
      rfl
    | cons b2 rest2 =>
      have happ' : (pre ++ [b]) ++ (b2 :: rest2) = encode B := by
        rw [List.append_assoc]; exact happ
      have hpre := decodeCore_prefix hB happ' (by simp)
      have hdrain : drain (pre ++ [b]) = (pre ++ [b], []) :=
        drain_stop hpre.symm
      rw [ingestOneByOne, ingest]
      simp only [hdrain, List.nil_append]
      exact ih (pre ++ [b]) now (stateFor (pre ++ [b])) now happ' (by simp)

/-- Claim C9: feeding an encoded frame's bytes to the session one byte at a
time produces exactly one decoded buffer, identical to the one produced by
feeding all the bytes in a single `ingest` call. -/
theorem c9_partial_delivery (B : ColorBuffer) (h : validBuffer B)
    (t now : Nat) :
    (ingestOneByOne (initialSession t) (encode B) now).2 = [B] ∧
    (ingest (initialSession t) (encode B) now).2 = [B] := by
  constructor
  · exact ingestOneByOne_prefix h.1 (encode B) [] t .AwaitingSync now rfl
      (by simp [encode])
  · rw [ingest]
    show (drain ([] ++ encode B)).2 = [B]
    rw [List.nil_append, drain_encode h.1]

theorem c9_witness :
    (ingestOneByOne (initialSession 0) (encode testBuffer) 7).2 =
      [testBuffer] ∧
    (ingest (initialSession 0) (encode testBuffer) 7).2 = [testBuffer] :=
  c9_partial_delivery testBuffer (by decide) 0 7

/-- Claim C10: every constant name defined in both headers has the same value
in both files: `BAUDRATE = 115200`, `TOTAL_LEDS = 402`, `NUM_LEDS_A = 220`,
and `NUM_LEDS_B` evaluates to 182 in both. -/
theorem c10_shared_constants_agree :
    V2A.BAUDRATE = V3both.BAUDRATE ∧ V2A.BAUDRATE = 115200 ∧
    V2A.TOTAL_LEDS = V3both.TOTAL_LEDS ∧ V2A.TOTAL_LEDS = 402 ∧
    V2A.NUM_LEDS_A = V3both.NUM_LEDS_A ∧ V2A.NUM_LEDS_A = 220 ∧
    V2A.NUM_LEDS_B = V3both.NUM_LEDS_B ∧ V2A.NUM_LEDS_B = 182 := by
  decide

end Globe
